import Mathlib

/-!
Shallow embedding of the Yomi-Proxy credential pool, caller rate limiter,
prompt assembler and provider wire adapter, translated from the JavaScript
sources (services/keyManager.js, services/statsService.js,
services/tokenManager.js, services/promptService.js,
controllers/proxyController.js).  Stateful code is embedded by explicit
state passing; the database and the upstream HTTP calls are external
collaborators and appear as parameters (resolved structure blocks, resolved
command definitions, dispatch outcomes).
-/

/-- One chat message: a role and a content string (OpenAI wire shape). -/
structure Msg where
  role : String
  content : String
  deriving Repr, DecidableEq

/-- Health status of one upstream credential (keyManager.js). -/
inductive KeyStatus where
  | unchecked
  | active
  | over_quota
  | revoked
  deriving Repr, DecidableEq

/-- One upstream API key entry: value, status and consecutive-failure counter
(keyManager.js `keys` array elements). -/
structure KeyEntry where
  value : String
  status : KeyStatus
  consecutiveFails : Nat
  deriving Repr, DecidableEq

/-- Per-provider pool entry: key list and round-robin cursor
(keyManager.js `state.providers[name]`). -/
structure ProviderData where
  keys : List KeyEntry
  currentIndex : Nat
  deriving Repr, DecidableEq

/-- The key-manager state: a map from provider name to its pool entry. -/
def Pool : Type := String → Option ProviderData

/-- Pointwise update of the pool at one provider name. -/
def poolSet (pool : Pool) (prov : String) (pd : ProviderData) : Pool :=
  fun q => if q = prov then some pd else pool q

/-- The threshold of consecutive rate-limit failures after which a key is
deactivated (keyManager.js RATE_LIMIT_THRESHOLD = 20). -/
def RATE_LIMIT_THRESHOLD : Nat := 20

/-- `getRotatingKey` (keyManager.js): scan the provider's keys starting at the
round-robin cursor, wrapping once; return the first `active` key and advance
the cursor to just past its index.  Returns `none` (and an unchanged pool)
when the provider is unknown, its key list is empty, or no key is active. -/
def getRotatingKey (pool : Pool) (prov : String) : Option KeyEntry × Pool :=
  match pool prov with
  | none => (none, pool)
  | some pd =>
    let totalKeys := pd.keys.length
    if totalKeys = 0 then (none, pool)
    else
      match (List.range totalKeys).find? (fun i =>
          match pd.keys[(pd.currentIndex + i) % totalKeys]? with
          | some k => decide (k.status = KeyStatus.active)
          | none => false) with
      | some i =>
        let keyIndex := (pd.currentIndex + i) % totalKeys
        (pd.keys[keyIndex]?,
         poolSet pool prov { pd with currentIndex := (keyIndex + 1) % totalKeys })
      | none => (none, pool)

/-- Replace the first list element satisfying `p` by its image under `f`
(embeds the JavaScript pattern `list.find(p)` followed by in-place mutation). -/
def updateFirst (p : α → Bool) (f : α → α) : List α → List α
  | [] => []
  | a :: t => if p a then f a :: t else a :: updateFirst p f t

/-- `deactivateKey` (keyManager.js): set the key's status to `reason` if it is
currently `active`; otherwise leave the pool unchanged. -/
def deactivateKey (pool : Pool) (prov : String) (keyValue : String)
    (reason : KeyStatus) : Pool :=
  match pool prov with
  | none => pool
  | some pd =>
    match pd.keys.find? (fun k => k.value = keyValue) with
    | none => pool
    | some k =>
      if k.status = KeyStatus.active then
        let keys1 := updateFirst (fun k => k.value = keyValue)
          (fun k => { k with status := reason }) pd.keys
        poolSet pool prov { pd with keys := keys1 }
      else pool

/-- `recordSuccess` (keyManager.js): reset the found key's failure counter to
zero; no-op when the provider or key is unknown. -/
def recordSuccess (pool : Pool) (prov : String) (keyValue : String) : Pool :=
  match pool prov with
  | none => pool
  | some pd =>
    match pd.keys.find? (fun k => k.value = keyValue) with
    | none => pool
    | some _ =>
      let keys1 := updateFirst (fun k => k.value = keyValue)
        (fun k => { k with consecutiveFails := 0 }) pd.keys
      poolSet pool prov { pd with keys := keys1 }

/-- The per-entry effect of one `recordFailure` call on the key it found, given
that the key is currently active: increment the counter, and when it reaches
the threshold, `deactivateKey` re-finds the same (still active) entry and
revokes it. -/
def failStep (k : KeyEntry) : KeyEntry :=
  let k1 := { k with consecutiveFails := k.consecutiveFails + 1 }
  if RATE_LIMIT_THRESHOLD ≤ k1.consecutiveFails then
    { k1 with status := KeyStatus.revoked }
  else k1

/-- `recordFailure` (keyManager.js): increment the failure counter only if the
found key is currently `active`; when the counter reaches the threshold the
key transitions to `revoked`. -/
def recordFailure (pool : Pool) (prov : String) (keyValue : String) : Pool :=
  match pool prov with
  | none => pool
  | some pd =>
    match pd.keys.find? (fun k => k.value = keyValue) with
    | none => pool
    | some k =>
      if k.status = KeyStatus.active then
        poolSet pool prov
          { pd with keys := updateFirst (fun k => k.value = keyValue) failStep pd.keys }
      else pool

/-- The credential a `find` on the given provider and key value would return:
the observable part of the pool the failure-reporting claims talk about. -/
def findCred (pool : Pool) (prov : String) (keyValue : String) : Option KeyEntry :=
  (pool prov).bind (fun pd => pd.keys.find? (fun k => k.value = keyValue))

/-- Application-wide statistics counters (statsService.js). -/
structure Stats where
  promptCount : Nat
  totalInputTokens : Nat
  totalOutputTokens : Nat
  deriving Repr, DecidableEq

/-- `incrementPromptCount` (statsService.js). -/
def incrementPromptCount (s : Stats) : Stats :=
  { s with promptCount := s.promptCount + 1 }

/-- `addTokens` (statsService.js). -/
def addTokens (s : Stats) (inputTokens outputTokens : Nat) : Stats :=
  { s with
    totalInputTokens := s.totalInputTokens + inputTokens,
    totalOutputTokens := s.totalOutputTokens + outputTokens }

/-- One caller token record as mirrored in memory (tokenManager.js
`state.tokens` values; expiry is a millisecond timestamp when present). -/
structure TokenData where
  name : String
  rpm : Nat
  is_enabled : Bool
  expires_at : Option Nat
  deriving Repr, DecidableEq

/-- The result object of `verifyAndRateLimit`: either a rejection with an HTTP
status and message, or admission carrying the caller's display name. -/
inductive VerifyResult where
  | rejected (status : Nat) (message : String)
  | admitted (name : String)
  deriving Repr, DecidableEq

/-- The per-token sliding windows of request timestamps
(tokenManager.js `state.requests`, defaulting to the empty list). -/
def ReqWindows : Type := String → List Nat

/-- Pointwise update of the request-window map (`state.requests.set`). -/
def windowSet (w : ReqWindows) (tok : String) (l : List Nat) : ReqWindows :=
  fun q => if q = tok then l else w q

/-- `verifyAndRateLimit` (tokenManager.js): look the token up; reject unknown
(401), disabled (403) and expired (403) tokens; otherwise keep only the
timestamps strictly within the trailing 60-second window, reject with 429
when their number reaches the RPM ceiling, and otherwise append the current
timestamp and admit. -/
def verifyAndRateLimit (tokens : String → Option TokenData) (requests : ReqWindows)
    (now : Nat) (tokenValue : String) : VerifyResult × ReqWindows :=
  match tokens tokenValue with
  | none => (VerifyResult.rejected 401 "Invalid token.", requests)
  | some tokenData =>
    if tokenData.is_enabled = false then
      (VerifyResult.rejected 403 "Token is disabled.", requests)
    else if (match tokenData.expires_at with
             | some e => decide (e < now)
             | none => false) then
      (VerifyResult.rejected 403 "Token has expired.", requests)
    else
      let reqs := requests tokenValue
      let recentRequests := reqs.filter (fun ts => now - ts < 60000)
      if tokenData.rpm ≤ recentRequests.length then
        (VerifyResult.rejected 429
          ("Rate limit of " ++ toString tokenData.rpm ++ " RPM exceeded."), requests)
      else
        (VerifyResult.admitted tokenData.name,
         windowSet requests tokenValue (recentRequests ++ [now]))

/-- Split a character list at the first occurrence of the (non-empty)
separator: the characters before it (accumulated in reverse) and the
characters after it. -/
def splitOnFirstAux (acc sep : List Char) : List Char → Option (List Char × List Char)
  | [] => none
  | c :: t =>
    if sep.isPrefixOf (c :: t) then some (acc.reverse, (c :: t).drop sep.length)
    else splitOnFirstAux (c :: acc) sep t

/-- Split a string at the first occurrence of a (non-empty) literal separator:
`some (before, after)` when found, `none` otherwise.  This is the first-match
semantics of the JavaScript regex and `replace`-with-string operations used
by the prompt service. -/
def firstSplit (s sep : String) : Option (String × String) :=
  (splitOnFirstAux [] sep.data s.data).map (fun p => (String.mk p.1, String.mk p.2))

/-- Whether `sub` occurs in `s` (JavaScript `String.prototype.includes`). -/
def containsSubstrB (s sub : String) : Bool :=
  (splitOnFirstAux [] sub.data s.data).isSome

/-- All fragments of splitting on every occurrence of the separator
(JavaScript `String.prototype.split` with a non-empty string separator; the
fuel argument only bounds recursion and is set to the list length). -/
def splitAllAux (sep : List Char) : Nat → List Char → List (List Char)
  | 0, cs => [cs]
  | fuel+1, cs =>
    match splitOnFirstAux [] sep cs with
    | none => [cs]
    | some (a, rest) => a :: splitAllAux sep fuel rest

/-- JavaScript `s.split(sep)` for a non-empty literal separator. -/
def jsSplit (s sep : String) : List String :=
  (splitAllAux sep.data s.data.length s.data).map String.mk

/-- JavaScript `s.trim()`: strip whitespace from both ends. -/
def jsTrim (s : String) : String :=
  String.mk (((s.data.dropWhile Char.isWhitespace).reverse.dropWhile
    Char.isWhitespace).reverse)

/-- Replace every (non-overlapping, left-to-right) occurrence of the
non-empty pattern, the replacement never rescanned (JavaScript
`s.replace(/pat/g, repl)` with a literal pattern; the fuel argument only
bounds recursion and is set to the list length). -/
def replaceAllAux (pat repl : List Char) : Nat → List Char → List Char
  | 0, cs => cs
  | fuel+1, cs =>
    match splitOnFirstAux [] pat cs with
    | none => cs
    | some (a, rest) => a ++ repl ++ replaceAllAux pat repl fuel rest

/-- JavaScript `s.replace(/pat/g, repl)` for a literal non-empty pattern. -/
def jsReplaceAll (s pat repl : String) : String :=
  String.mk (replaceAllAux pat.data repl.data s.data.length s.data)

/-- Join strings with a separator (JavaScript `Array.prototype.join`). -/
def joinSep (sep : String) : List String → String
  | [] => ""
  | [a] => a
  | a :: b :: t => a ++ sep ++ joinSep sep (b :: t)

/-- JavaScript `s.toUpperCase()` on the ASCII range. -/
def jsToUpper (s : String) : String :=
  String.mk (s.data.map Char.toUpper)

/-- Match the span `openTag … closeTag` (first occurrence, lazy inner) and
return the inner text together with the string with the whole span removed;
`none` when the span does not occur.  Embeds the
`text.match(/<T>([\s\S]*?)<\/T>/)` + `replace(match[0], "")` pattern of
parseJanitorInput (promptService.js). -/
def extractSpan (s openTag closeTag : String) : Option (String × String) :=
  match firstSplit s openTag with
  | none => none
  | some (pre, rest) =>
    match firstSplit rest closeTag with
    | none => none
    | some (inner, post) => some (inner, pre ++ post)

/-- The literal tail of the persona open tag, an apostrophe followed by
`s Persona>` (the regex `<(.+?)'s Persona>` of parseJanitorInput). -/
def personaSuffix : List Char := Char.ofNat 39 :: String.toList "s Persona>"

/-- Lazy scan for the shortest non-empty run of non-newline characters
followed by the persona suffix (the `(.+?)` group of the persona regex). -/
def tryPersonaName : List Char → List Char → Option (List Char)
  | [], _ => none
  | c :: t, acc =>
    if c = Char.ofNat 10 then none
    else
      let acc1 := acc ++ [c]
      if personaSuffix.isPrefixOf t then some acc1
      else tryPersonaName t acc1

/-- First match of the persona-name regex `<(.+?)'s Persona>`: at each `<`
try the lazy name scan, else move on. -/
def charScan : List Char → Option (List Char)
  | [] => none
  | c :: t =>
    if c = Char.ofNat 60 then
      match tryPersonaName t [] with
      | some n => some n
      | none => charScan t
    else charScan t

/-- The result record of `parseJanitorInput` (promptService.js). -/
structure JanitorParse where
  userInfo : String
  customPromptInfo : String
  unparsedText : String
  characterName : String
  chatHistory : List Msg
  deriving Repr, DecidableEq

/-- `parseJanitorInput` (services/promptService.js): extract the
`<UserPersona>` and `<Custom_Prompt>` spans from the FIRST message's content
(stripping them from its copy), take the character name from the first
persona open tag of the first message's original content (defaulting to
`Character`), and keep the remaining messages as chat history, where an
assistant message containing `<w>` keeps only the trimmed text after the
last `<w>`. -/
def parseJanitorInput (incomingMessages : List Msg) : JanitorParse :=
  match incomingMessages with
  | [] => ⟨"", "", "", "Character", []⟩
  | first :: rest =>
    let setupMessageContent := first.content
    let step1 :=
      match extractSpan setupMessageContent "<UserPersona>" "</UserPersona>" with
      | some (inner, stripped) => (jsTrim inner, stripped)
      | none => ("", setupMessageContent)
    let step2 :=
      match extractSpan step1.2 "<Custom_Prompt>" "</Custom_Prompt>" with
      | some (inner, stripped) => (jsTrim inner, stripped)
      | none => ("", step1.2)
    let characterName :=
      match charScan setupMessageContent.toList with
      | some n => String.mk n
      | none => "Character"
    let chatHistory := rest.map (fun m =>
      if m.role == "assistant" && containsSubstrB m.content "<w>" then
        { m with content := jsTrim ((jsSplit m.content "<w>").getLastD "") }
      else m)
    ⟨step1.1, step2.1, jsTrim step2.2, characterName, chatHistory⟩

/-- A character the command-tag regex class `[A-Z0-9_]` accepts. -/
def isTagChar (c : Char) : Bool :=
  c.isUpper || c.isDigit || c == Char.ofNat 95

/-- All matches of `/<([A-Z0-9_]+)>/g` over a character list, in order (the
fuel argument only bounds recursion and is set to the list length). -/
def scanTagsAux : Nat → List Char → List String
  | 0, _ => []
  | _, [] => []
  | fuel+1, c :: t =>
    if c = Char.ofNat 60 then
      let run := t.takeWhile isTagChar
      match t.drop run.length with
      | g :: rest2 =>
        if run.length ≠ 0 && g == Char.ofNat 62 then
          String.mk run :: scanTagsAux fuel rest2
        else scanTagsAux fuel t
      | [] => scanTagsAux fuel t
    else scanTagsAux fuel t

/-- Collapse duplicates keeping first occurrences, tracking what was already
seen (the JavaScript `[...new Set(xs)]` idiom). -/
def dedupFirstAux (seen : List String) : List String → List String
  | [] => []
  | a :: t =>
    if seen.contains a then dedupFirstAux seen t
    else a :: dedupFirstAux (a :: seen) t

/-- Collapse duplicates keeping first occurrences. -/
def dedupFirst (l : List String) : List String := dedupFirstAux [] l

/-- `parseCommandsFromMessages` (promptService.js): the set of distinct
uppercase command tags found in the space-joined contents of all messages. -/
def parseCommandsFromMessages (messages : List Msg) : List String :=
  match messages with
  | [] => []
  | _ =>
    let fullText := joinSep " " (messages.map (fun m => m.content))
    dedupFirst ((scanTagsAux fullText.toList.length fullText.toList).map jsToUpper)

/-- Set a request variable (JavaScript `Map.prototype.set`: overwrite the
existing binding or append a new one). -/
def varSet : List (String × String) → String → String → List (String × String)
  | [], k, v => [(k, v)]
  | (a, b) :: t, k, v => if a = k then (a, v) :: t else (a, b) :: varSet t k v

/-- Look a request variable up (`Map.prototype.get`). -/
def varGet (m : List (String × String)) (k : String) : Option String :=
  (m.find? (fun p => p.1 == k)).map (fun p => p.2)

/-- The literal opener of the set-variable macro. -/
def setMacroOpen : String := "\x7b\x7bsetglobalvar::"

/-- The literal opener of the get-variable macro. -/
def getMacroOpen : String := "\x7b\x7bgetglobalvar::"

/-- The literal closer of both macros. -/
def closeBraces : String := "\x7d\x7d"

/-- The set-macro pass of `processMacros` (promptService.js): every
`setglobalvar` span (name: one or more non-colon characters; value: lazily up
to the first closer) removes itself and stores the value under the trimmed
name; scanning resumes after the span.  The fuel argument only bounds
recursion and is set to the string length. -/
def setPassAux : Nat → List (String × String) → String → String × List (String × String)
  | 0, m, s => (s, m)
  | fuel+1, m, s =>
    match firstSplit s setMacroOpen with
    | none => (s, m)
    | some (before, rest) =>
      let nameChars := rest.toList.takeWhile (fun c => c != Char.ofNat 58)
      let namePart := String.mk nameChars
      let afterName := rest.toList.drop nameChars.length
      if nameChars.length ≠ 0 && [Char.ofNat 58, Char.ofNat 58].isPrefixOf afterName then
        let r2 := String.mk (afterName.drop 2)
        match firstSplit r2 closeBraces with
        | none => (s, m)
        | some (value, r3) =>
          let res := setPassAux fuel (varSet m (jsTrim namePart) value) r3
          (before ++ res.1, res.2)
      else
        let res := setPassAux fuel m rest
        (before ++ setMacroOpen ++ res.1, res.2)

/-- The get-macro pass of `processMacros`: every `getglobalvar` span (name:
one or more non-closing-brace characters) is replaced by the stored value of
the trimmed name, or by the empty string when unset. -/
def getPassAux : Nat → List (String × String) → String → String
  | 0, _, s => s
  | fuel+1, m, s =>
    match firstSplit s getMacroOpen with
    | none => s
    | some (before, rest) =>
      let nameChars := rest.toList.takeWhile (fun c => c != Char.ofNat 125)
      let namePart := String.mk nameChars
      let afterName := rest.toList.drop nameChars.length
      if nameChars.length ≠ 0 && closeBraces.data.isPrefixOf afterName then
        let r2 := String.mk (afterName.drop 2)
        let valueStr :=
          match varGet m (jsTrim namePart) with
          | some v => v
          | none => ""
        before ++ valueStr ++ getPassAux fuel m r2
      else
        before ++ getMacroOpen ++ getPassAux fuel m rest

/-- `processMacros` (promptService.js): run the set pass over the whole text,
then the get pass, threading the request-scoped variable map. -/
def processMacros (m : List (String × String)) (text : String) :
    String × List (String × String) :=
  let res := setPassAux text.length m text
  (getPassAux res.1.length res.2 res.1, res.2)

/-- One prompt-structure block (global_prompt_blocks row, the fields
buildFinalMessages reads). -/
structure Block where
  name : String
  role : String
  content : String
  block_type : String
  replacement_command_id : Option String
  deriving Repr, DecidableEq

/-- One resolved command definition (commands row, the fields
buildFinalMessages reads). -/
structure CommandDef where
  command_tag : String
  command_type : String
  command_id : Option String
  block_role : String
  block_content : String
  deriving Repr, DecidableEq

/-- The successful result of buildFinalMessages. -/
structure BuildOut where
  finalMessages : List Msg
  characterName : String
  commandTags : List String
  deriving Repr, DecidableEq

/-- The `{{char}}` placeholder literal. -/
def charPlaceholder : String := "\x7b\x7bchar\x7d\x7d"

/-- The placeholder substitution `replacer` of buildFinalMessages
(promptService.js): replace all `{{char}}`, `<<USER_INFO>>` and
`<<CUSTOM_PROMPT>>` occurrences, in that order. -/
def replacer (characterName userInfo customPromptInfo : String) (text : String) : String :=
  jsReplaceAll (jsReplaceAll (jsReplaceAll text charPlaceholder characterName)
    "<<USER_INFO>>" userInfo) "<<CUSTOM_PROMPT>>" customPromptInfo

/-- The commands of one type, as role/content pairs in definition order
(the `commandsByType` buckets of buildFinalMessages). -/
def commandsOfType (defs : List CommandDef) (ty : String) : List Msg :=
  (defs.filter (fun c => c.command_type == ty)).map
    (fun c => ⟨c.block_role, c.block_content⟩)

/-- The walking state of the block loop of buildFinalMessages. -/
structure AsmState where
  finalMessages : List Msg
  historyInjected : Bool
  vars : List (String × String)
  deriving Repr

/-- Emit one content source item of a block: apply placeholder substitution,
then macros; under `Additional Commands` force the block's role; split on the
`<<CHAT_HISTORY>>` marker when present (dropping anything after a second
marker), else emit one message when the trimmed content is non-blank. -/
def emitItem (characterName userInfo customPromptInfo : String)
    (chatHistory : List Msg) (blockType blockRole : String)
    (st : AsmState) (item : Msg) : AsmState :=
  let content0 := replacer characterName userInfo customPromptInfo item.content
  let res := processMacros st.vars content0
  let content := res.1
  let role := if blockType == "Additional Commands" then blockRole else item.role
  if containsSubstrB content "<<CHAT_HISTORY>>" then
    let parts := jsSplit content "<<CHAT_HISTORY>>"
    let p0 := parts.headD ""
    let p1 := parts.tail.headD ""
    let fm1 := if jsTrim p0 ≠ "" then st.finalMessages ++ [⟨role, p0⟩] else st.finalMessages
    let fm2 := fm1 ++ chatHistory
    let fm3 := if jsTrim p1 ≠ "" then fm2 ++ [⟨role, p1⟩] else fm2
    ⟨fm3, true, res.2⟩
  else
    if jsTrim content ≠ "" then
      ⟨st.finalMessages ++ [⟨role, content⟩], st.historyInjected, res.2⟩
    else ⟨st.finalMessages, st.historyInjected, res.2⟩

/-- Process one block of the structure walk of buildFinalMessages:
`Unparsed Text Injection` injects the remaining first-message text;
`Prompting Fallback` substitutes a command's content when its external id
matches; `Conditional Prefill` is skipped when a Prefill command is present;
the three command kinds emit their bucket; anything else emits the block
itself. -/
def processBlock (jp : JanitorParse) (commandDefinitions : List CommandDef)
    (hasPrefillCommand : Bool) (st : AsmState) (block : Block) : AsmState :=
  if block.block_type == "Unparsed Text Injection" then
    if jp.unparsedText ≠ "" then
      { st with finalMessages := st.finalMessages ++ [⟨block.role, jp.unparsedText⟩] }
    else st
  else
    let currentContent :=
      if block.block_type == "Prompting Fallback" then
        match block.replacement_command_id with
        | some rid =>
          match commandDefinitions.find? (fun cmd => cmd.command_id == some rid) with
          | some overrideCommand => overrideCommand.block_content
          | none => block.content
        | none => block.content
      else block.content
    let blockType := block.block_type
    if blockType == "Conditional Prefill" && hasPrefillCommand then st
    else
      let contentSource : List Msg :=
        if blockType == "Jailbreak" || blockType == "Additional Commands"
            || blockType == "Prefill" then
          commandsOfType commandDefinitions blockType
        else [⟨block.role, currentContent⟩]
      contentSource.foldl
        (emitItem jp.characterName jp.userInfo jp.customPromptInfo jp.chatHistory
          blockType block.role) st

/-- The user-input error message of the multiple-Prefill conflict
(buildFinalMessages, promptService.js). -/
def prefillErrorMsg (prefillCommands : List CommandDef) : String :=
  "Error: Only 1 Prefill command is allowed. Found: " ++
    joinSep ", "
      (prefillCommands.map (fun cmd => "<" ++ cmd.command_tag ++ ">")) ++ "."

/-- The structure actually used: the provider's own blocks, falling back to
the blocks registered under `default` when the provider has none
(buildFinalMessages lines 100-104). -/
def resolveStructure (provider : String) (structProvider structDefault : List Block) :
    List Block :=
  if structProvider.length = 0 ∧ provider ≠ "default" then structDefault
  else structProvider

/-- buildFinalMessages (services/promptService.js), generalized over the
initial request-variable map (the source constructs `new Map()`, i.e. the
empty map, at the top of each call; `buildFinalMessages` below fixes that).
The stored structure blocks and the resolved command definitions are
parameters standing for the database collaborator. -/
def buildFinalMessagesWithVars (vars0 : List (String × String)) (provider : String)
    (structProvider structDefault : List Block) (commandDefinitions : List CommandDef)
    (incomingMessages : List Msg) : Except String BuildOut :=
  let structureToUse := resolveStructure provider structProvider structDefault
  let commandTags := parseCommandsFromMessages incomingMessages
  if structureToUse.length = 0 then
    Except.ok ⟨incomingMessages, (parseJanitorInput incomingMessages).characterName,
      commandTags⟩
  else
    let jp := parseJanitorInput incomingMessages
    let prefillCommands := commandDefinitions.filter (fun c => c.command_type == "Prefill")
    if 1 < prefillCommands.length then
      Except.error (prefillErrorMsg prefillCommands)
    else
      let hasPrefillCommand := decide (prefillCommands.length ≠ 0)
      let st1 := structureToUse.foldl
        (processBlock jp commandDefinitions hasPrefillCommand)
        ⟨[], false, vars0⟩
      let fm := if st1.historyInjected then st1.finalMessages
        else st1.finalMessages ++ jp.chatHistory
      Except.ok ⟨fm, jp.characterName, commandTags⟩

/-- buildFinalMessages proper: the request-variable map starts empty on every
call (`const requestVariables = new Map()`). -/
def buildFinalMessages (provider : String) (structProvider structDefault : List Block)
    (commandDefinitions : List CommandDef) (incomingMessages : List Msg) :
    Except String BuildOut :=
  buildFinalMessagesWithVars [] provider structProvider structDefault
    commandDefinitions incomingMessages

/-- The provider-configuration fields the Claude conversion reads. -/
structure ProviderConfig where
  modelId : String
  deriving Repr, DecidableEq

/-- The inbound OpenAI-style request fields the Claude conversion reads
(temperature and top_p are optional floating-point passthroughs and are not
modelled). -/
structure OpenAIRequest where
  messages : List Msg
  max_tokens : Option Nat
  stream : Bool
  deriving Repr, DecidableEq

/-- The outbound Claude Messages-API request shape built by
openAIToClaudeRequest. -/
structure ClaudeRequest where
  model : String
  messages : List Msg
  max_tokens : Nat
  stream : Bool
  system : Option String
  deriving Repr, DecidableEq

/-- The filter loop of openAIToClaudeRequest (proxyController.js): walk the
messages once; a system-role message overwrites the pending system prompt and
is excluded; any other message is kept when its content is non-empty after
trimming.  Returns the final system prompt and the kept messages. -/
def claudeFilter : List Msg → String → String × List Msg
  | [], sys => (sys, [])
  | m :: t, sys =>
    if m.role == "system" then claudeFilter t m.content
    else
      let res := claudeFilter t sys
      if jsTrim m.content ≠ "" then (res.1, m :: res.2) else res

/-- openAIToClaudeRequest (controllers/proxyController.js): drop system
messages (the last one seen becomes the system channel when non-empty), drop
empty messages, default max_tokens to 4096 when absent or zero (JavaScript
`||`), and carry the configured model id. -/
def openAIToClaudeRequest (openaiRequest : OpenAIRequest)
    (providerConfig : ProviderConfig) : ClaudeRequest :=
  let res := claudeFilter openaiRequest.messages ""
  { model := providerConfig.modelId
    messages := res.2
    max_tokens :=
      match openaiRequest.max_tokens with
      | some n => if n = 0 then 4096 else n
      | none => 4096
    stream := openaiRequest.stream
    system := if res.1 = "" then none else some res.1 }

/-- The error shapes handleProxyError distinguishes: the UserInputError
raised by assembly, or an upstream HTTP failure (with `none` standing for a
response-less transport error). -/
inductive ProxyError where
  | userInput (message : String)
  | http (status : Option Nat)
  deriving Repr, DecidableEq

/-- handleProxyError (controllers/proxyController.js): a UserInputError is
reported as 400 touching no credential; an upstream 402 deactivates the key
as over_quota, a 429 records a failure, a 401 or 403 deactivates it as
revoked, anything else leaves the pool alone; the response status is the
upstream one, defaulting to 500. -/
def handleProxyError (pool : Pool) (prov : String) (apiKey : String) :
    ProxyError → Nat × Pool
  | ProxyError.userInput _ => (400, pool)
  | ProxyError.http st =>
    let pool1 :=
      if st = some 402 then deactivateKey pool prov apiKey KeyStatus.over_quota
      else if st = some 429 then recordFailure pool prov apiKey
      else if st = some 401 ∨ st = some 403 then
        deactivateKey pool prov apiKey KeyStatus.revoked
      else pool
    (st.getD 500, pool1)

/-- What the upstream dispatch did: a success with the usage counts of the
normalized response, or a failure with the upstream HTTP status (the network
is an external collaborator, so this is a parameter). -/
inductive DispatchOutcome where
  | success (promptTokens completionTokens : Nat)
  | failure (status : Option Nat)
  deriving Repr, DecidableEq

/-- proxyRequest (controllers/proxyController.js), non-streaming paths: bump
the prompt counter, select a credential (503 when none), assemble the prompt
(a UserInputError becomes a 400 through handleProxyError), then on dispatch
success record the success and add the usage tokens, and on dispatch failure
run handleProxyError. -/
def proxyRequest (pool : Pool) (stats : Stats) (provider : String)
    (structProvider structDefault : List Block) (commandDefinitions : List CommandDef)
    (messages : List Msg) (outcome : DispatchOutcome) : Nat × Pool × Stats :=
  let stats1 := incrementPromptCount stats
  match getRotatingKey pool provider with
  | (none, pool1) => (503, pool1, stats1)
  | (some rotatingKey, pool1) =>
    match buildFinalMessages provider structProvider structDefault
        commandDefinitions messages with
    | Except.error msg =>
      let res := handleProxyError pool1 provider rotatingKey.value
        (ProxyError.userInput msg)
      (res.1, res.2, stats1)
    | Except.ok _ =>
      match outcome with
      | DispatchOutcome.success pt ct =>
        (200, recordSuccess pool1 provider rotatingKey.value, addTokens stats1 pt ct)
      | DispatchOutcome.failure st =>
        let res := handleProxyError pool1 provider rotatingKey.value
          (ProxyError.http st)
        (res.1, res.2, stats1)

/-- A sequence of consecutive getRotatingKey calls, returning the list of
selected credentials and the final pool. -/
def rotateCalls : Pool → String → Nat → List (Option KeyEntry) × Pool
  | pool, _, 0 => ([], pool)
  | pool, prov, n+1 =>
    let res := getRotatingKey pool prov
    let rest := rotateCalls res.2 prov n
    (res.1 :: rest.1, rest.2)

/-- Decidable equality for assembly results. -/
instance : DecidableEq (Except String BuildOut) := fun a b =>
  match a, b with
  | Except.ok x, Except.ok y =>
    if h : x = y then isTrue (by rw [h]) else isFalse (fun hc => h (by cases hc; rfl))
  | Except.error x, Except.error y =>
    if h : x = y then isTrue (by rw [h]) else isFalse (fun hc => h (by cases hc; rfl))
  | Except.ok _, Except.error _ => isFalse (fun hc => by cases hc)
  | Except.error _, Except.ok _ => isFalse (fun hc => by cases hc)

theorem getRotatingKey_all_active (pool : Pool) (prov : String) (ks : List KeyEntry) (c : Nat)
    (hp : pool prov = some ⟨ks, c⟩) (hne : 0 < ks.length)
    (hall : ∀ k ∈ ks, k.status = KeyStatus.active) :
    getRotatingKey pool prov =
      (ks[c % ks.length]?, poolSet pool prov ⟨ks, (c + 1) % ks.length⟩) := by
  have hlen : ks.length ≠ 0 := Nat.pos_iff_ne_zero.mp hne
  have hmod : c % ks.length < ks.length := Nat.mod_lt _ hne
  have hact : (ks.get ⟨c % ks.length, hmod⟩).status = KeyStatus.active :=
    hall _ (List.get_mem ks _ hmod)
  have hfind : (List.range ks.length).find? (fun i =>
      match ks[(c + i) % ks.length]? with
      | some k => decide (k.status = KeyStatus.active)
      | none => false) = some 0 := by
    obtain ⟨m, hm⟩ : ∃ m, ks.length = m + 1 :=
      ⟨ks.length - 1, (Nat.succ_pred_eq_of_pos hne).symm⟩
    rw [hm, List.range_succ_eq_map, List.find?_cons]
    rw [← hm]
    simp only [Nat.add_zero, List.getElem?_eq_getElem hmod]
    have h2 : ks[c % ks.length].status = KeyStatus.active := hact
    simp [h2]
  unfold getRotatingKey
  rw [hp]
  simp only [hfind]
  simp [hlen, Nat.mod_add_mod]

theorem poolSet_eval (pool : Pool) (prov : String) (pd : ProviderData) :
    poolSet pool prov pd prov = some pd := by
  simp [poolSet]

theorem poolSet_poolSet (pool : Pool) (prov : String) (a b : ProviderData) :
    poolSet (poolSet pool prov a) prov b = poolSet pool prov b := by
  funext q
  by_cases h : q = prov <;> simp [poolSet, h]

theorem rotateCalls_succ (pool : Pool) (prov : String) (n : Nat) :
    rotateCalls pool prov (n + 1) =
      ((getRotatingKey pool prov).1 :: (rotateCalls (getRotatingKey pool prov).2 prov n).1,
       (rotateCalls (getRotatingKey pool prov).2 prov n).2) := rfl

theorem rotateCalls_all_active (prov : String) (ks : List KeyEntry)
    (hne : 0 < ks.length) (hall : ∀ k ∈ ks, k.status = KeyStatus.active) :
    ∀ (n : Nat) (pool : Pool) (c : Nat), pool prov = some ⟨ks, c⟩ →
      rotateCalls pool prov (n + 1) =
        ((List.range (n + 1)).map (fun i => ks[(c + i) % ks.length]?),
         poolSet pool prov ⟨ks, (c + (n + 1)) % ks.length⟩) := by
  intro n
  induction n with
  | zero =>
    intro pool c hp
    rw [rotateCalls_succ, getRotatingKey_all_active pool prov ks c hp hne hall]
    simp [rotateCalls, List.range_succ]
  | succ n ih =>
    intro pool c hp
    have h1 := getRotatingKey_all_active pool prov ks c hp hne hall
    have h2 := ih (poolSet pool prov ⟨ks, (c + 1) % ks.length⟩) ((c + 1) % ks.length)
      (poolSet_eval _ _ _)
    rw [rotateCalls_succ, h1]
    simp only [h2, poolSet_poolSet, Nat.mod_add_mod]
    rw [Prod.mk.injEq]
    refine ⟨?_, ?_⟩
    · rw [show n + 1 + 1 = n + 2 from rfl]
      conv_rhs => rw [List.range_succ_eq_map, List.map_cons, List.map_map]
      congr 1
      apply List.map_congr_left
      intro i _
      simp only [Function.comp, Nat.succ_eq_add_one]
      congr 2
      omega
    · rw [show c + 1 + (n + 1) = c + (n + 1 + 1) from by omega]

theorem rotate_indices_perm (N c : Nat) (hne : 0 < N) :
    ((List.range N).map (fun i => (c + i) % N)).Perm (List.range N) := by
  have hnd : ((List.range N).map (fun i => (c + i) % N)).Nodup := by
    apply List.Nodup.map_on _ (List.nodup_range N)
    intro i hi j hj hij
    have hi2 : i < N := List.mem_range.mp hi
    have hj2 : j < N := List.mem_range.mp hj
    have h2 : i % N = j % N :=
      Nat.ModEq.add_left_cancel (Nat.ModEq.refl c) (hij : (c + i) ≡ (c + j) [MOD N])
    rwa [Nat.mod_eq_of_lt hi2, Nat.mod_eq_of_lt hj2] at h2
  apply List.perm_of_nodup_nodup_toFinset_eq hnd (List.nodup_range N)
  apply Finset.eq_of_subset_of_card_le
  · intro x hx
    simp only [List.mem_toFinset, List.mem_map, List.mem_range] at hx ⊢
    obtain ⟨i, hi, rfl⟩ := hx
    exact Nat.mod_lt _ hne
  · rw [List.toFinset_card_of_nodup hnd, List.toFinset_card_of_nodup (List.nodup_range N)]
    simp

theorem failStep_value (k : KeyEntry) : (failStep k).value = k.value := by
  unfold failStep
  by_cases h : RATE_LIMIT_THRESHOLD ≤ k.consecutiveFails + 1 <;> simp [h]

theorem find?_updateFirst (p : α → Bool) (f : α → α) (l : List α) (a : α)
    (h : l.find? p = some a) (hpf : p (f a) = true) :
    (updateFirst p f l).find? p = some (f a) := by
  induction l with
  | nil => simp at h
  | cons b t ih =>
    by_cases hb : p b = true
    · rw [List.find?_cons_of_pos _ hb] at h
      injection h with h
      subst h
      rw [updateFirst, if_pos hb, List.find?_cons_of_pos _ hpf]
    · rw [List.find?_cons_of_neg _ hb] at h
      rw [updateFirst, if_neg hb, List.find?_cons_of_neg _ hb]
      exact ih h

theorem findCred_recordFailure_active (pool : Pool) (prov v : String) (k : KeyEntry)
    (hfc : findCred pool prov v = some k) (ha : k.status = KeyStatus.active) :
    findCred (recordFailure pool prov v) prov v = some (failStep k) := by
  unfold findCred at hfc
  cases hp : pool prov with
  | none => rw [hp] at hfc; simp at hfc
  | some pd =>
    rw [hp] at hfc
    simp only [Option.some_bind] at hfc
    unfold recordFailure
    rw [hp]
    simp only [hfc]
    rw [if_pos ha]
    unfold findCred
    rw [poolSet_eval]
    simp only [Option.some_bind]
    apply find?_updateFirst _ _ _ _ hfc
    have hv : k.value = v := by
      have := List.find?_some hfc
      simpa using this
    simp [failStep_value, hv]

theorem recordFailure_inactive (pool : Pool) (prov v : String) (k : KeyEntry)
    (hfc : findCred pool prov v = some k) (hna : k.status ≠ KeyStatus.active) :
    recordFailure pool prov v = pool := by
  unfold findCred at hfc
  cases hp : pool prov with
  | none => unfold recordFailure; rw [hp]
  | some pd =>
    rw [hp] at hfc
    simp only [Option.some_bind] at hfc
    unfold recordFailure
    rw [hp]
    simp only [hfc]
    rw [if_neg hna]

theorem findCred_recordFailure_iter (prov v : String) :
    ∀ (n : Nat) (pool : Pool) (k : KeyEntry), findCred pool prov v = some k →
      (∀ i, i < n → (failStep^[i] k).status = KeyStatus.active) →
      findCred ((fun p => recordFailure p prov v)^[n] pool) prov v =
        some (failStep^[n] k) := by
  intro n
  induction n with
  | zero => intro pool k h _; simpa using h
  | succ m ih =>
    intro pool k h hact
    rw [Function.iterate_succ_apply', Function.iterate_succ_apply']
    exact findCred_recordFailure_active _ prov v _
      (ih pool k h (fun i hi => hact i (Nat.lt_succ_of_lt hi)))
      (hact m (Nat.lt_succ_self m))

theorem failStep_iter_small (val : String) :
    ∀ n, n ≤ 19 → failStep^[n] ⟨val, KeyStatus.active, 0⟩ = ⟨val, KeyStatus.active, n⟩ := by
  intro n hn
  induction n with
  | zero => rfl
  | succ m ih =>
    rw [Function.iterate_succ_apply', ih (Nat.le_of_succ_le hn)]
    unfold failStep
    simp only [RATE_LIMIT_THRESHOLD]
    rw [if_neg (by omega)]

theorem getRotatingKey_unknown (pool : Pool) (prov : String) (hp : pool prov = none) :
    getRotatingKey pool prov = (none, pool) := by
  unfold getRotatingKey
  rw [hp]

theorem getRotatingKey_no_active (pool : Pool) (prov : String) (pd : ProviderData)
    (hp : pool prov = some pd) (hnone : ∀ k ∈ pd.keys, k.status ≠ KeyStatus.active) :
    getRotatingKey pool prov = (none, pool) := by
  unfold getRotatingKey
  rw [hp]
  by_cases hlen : pd.keys.length = 0
  · simp [hlen]
  · have hfind : (List.range pd.keys.length).find? (fun i =>
        match pd.keys[(pd.currentIndex + i) % pd.keys.length]? with
        | some k => decide (k.status = KeyStatus.active)
        | none => false) = none := by
      rw [List.find?_eq_none]
      intro i _
      have hpos : 0 < pd.keys.length := Nat.pos_of_ne_zero hlen
      have hidx : (pd.currentIndex + i) % pd.keys.length < pd.keys.length :=
        Nat.mod_lt _ hpos
      rw [List.getElem?_eq_getElem hidx]
      simp only [decide_eq_true_eq]
      exact hnone _ (pd.keys.getElem_mem hidx)
    simp [hlen, hfind]

/-- A concrete two-key all-active pool for the C2 witness. -/
def ksC2 : List KeyEntry :=
  [⟨"a", KeyStatus.active, 0⟩, ⟨"b", KeyStatus.active, 0⟩]

/-- A concrete pool mapping provider `p` to `ksC2` with cursor 1. -/
def poolC2 : Pool := fun q => if q = "p" then some ⟨ksC2, 1⟩ else none

/-- C2: for a provider whose pool holds N credentials all `active` and any
starting cursor, N consecutive getRotatingKey calls return the credentials in
cyclic order starting at the cursor (first conjunct), the N indices served
form a permutation of all N positions, i.e. each credential is returned
exactly once (second conjunct), and every single call returns the credential
at the cursor position and advances the cursor to just past that index (third
conjunct). -/
theorem claim_C2_round_robin (pool : Pool) (prov : String) (ks : List KeyEntry)
    (c : Nat) (hp : pool prov = some ⟨ks, c⟩) (hne : 0 < ks.length)
    (hall : ∀ k ∈ ks, k.status = KeyStatus.active) :
    (rotateCalls pool prov ks.length).1 =
        (List.range ks.length).map (fun i => ks[(c + i) % ks.length]?)
      ∧ ((List.range ks.length).map (fun i => (c + i) % ks.length)).Perm
          (List.range ks.length)
      ∧ ∀ (pool2 : Pool) (c2 : Nat), pool2 prov = some ⟨ks, c2⟩ →
          getRotatingKey pool2 prov =
            (ks[c2 % ks.length]?, poolSet pool2 prov ⟨ks, (c2 + 1) % ks.length⟩) := by
  obtain ⟨m, hm⟩ : ∃ m, ks.length = m + 1 :=
    ⟨ks.length - 1, (Nat.succ_pred_eq_of_pos hne).symm⟩
  refine ⟨?_, rotate_indices_perm _ _ hne,
    fun pool2 c2 hp2 => getRotatingKey_all_active pool2 prov ks c2 hp2 hne hall⟩
  have h := rotateCalls_all_active prov ks hne hall m pool c hp
  rw [← hm] at h
  rw [h]

theorem claim_C2_witness :
    (rotateCalls poolC2 "p" ksC2.length).1 =
      (List.range ksC2.length).map (fun i => ksC2[(1 + i) % ksC2.length]?) :=
  (claim_C2_round_robin poolC2 "p" ksC2 1 rfl (by decide) (by decide)).1

/-- A concrete one-key active pool for the C3 witness. -/
def poolC3 : Pool :=
  fun q => if q = "p" then some ⟨[⟨"a", KeyStatus.active, 0⟩], 0⟩ else none

/-- C3: a credential that is `active` with failure counter zero is still
`active` (with counter 19) after 19 consecutive recordFailure calls, and is
`revoked` (with counter 20) after 20 such calls; and recordFailure leaves the
pool unchanged whenever the found credential is not `active`, so the counter
is incremented only while the credential is active. -/
theorem claim_C3_deactivation_threshold (pool : Pool) (prov v : String) (k : KeyEntry)
    (hfc : findCred pool prov v = some k) (ha : k.status = KeyStatus.active)
    (h0 : k.consecutiveFails = 0) :
    findCred ((fun p => recordFailure p prov v)^[19] pool) prov v =
        some ⟨k.value, KeyStatus.active, 19⟩
      ∧ findCred ((fun p => recordFailure p prov v)^[20] pool) prov v =
        some ⟨k.value, KeyStatus.revoked, 20⟩
      ∧ ∀ (pool2 : Pool) (k2 : KeyEntry), findCred pool2 prov v = some k2 →
          k2.status ≠ KeyStatus.active → recordFailure pool2 prov v = pool2 := by
  obtain ⟨val, st, cf⟩ := k
  simp only at ha h0
  subst ha
  subst h0
  have hsmall : ∀ i, i < 19 →
      (failStep^[i] (⟨val, KeyStatus.active, 0⟩ : KeyEntry)).status = KeyStatus.active := by
    intro i hi
    rw [failStep_iter_small val i (by omega)]
  have h19 := findCred_recordFailure_iter prov v 19 pool _ hfc hsmall
  rw [failStep_iter_small val 19 (by omega)] at h19
  refine ⟨h19, ?_, fun pool2 k2 hf2 hna => recordFailure_inactive pool2 prov v k2 hf2 hna⟩
  rw [show (20 : Nat) = 19 + 1 from rfl, Function.iterate_succ_apply']
  have h20 := findCred_recordFailure_active _ prov v _ h19 rfl
  rw [h20]
  rfl

theorem claim_C3_witness :
    findCred ((fun p => recordFailure p "p" "a")^[20] poolC3) "p" "a" =
      some ⟨"a", KeyStatus.revoked, 20⟩ :=
  (claim_C3_deactivation_threshold poolC3 "p" "a" ⟨"a", KeyStatus.active, 0⟩
    rfl rfl rfl).2.1

/-- A pool that knows no provider at all. -/
def poolUnknown : Pool := fun _ => none

/-- A pool where provider `x` exists but its only credential is revoked. -/
def poolExhausted : Pool :=
  fun q => if q = "x" then some ⟨[⟨"a", KeyStatus.revoked, 3⟩], 0⟩ else none

/-- C7 counterexample: the claim says the no-active-credential result is
distinct from the unknown-provider result, but getRotatingKey returns the
same `none` in both cases: on a pool where provider `x` is known with only a
revoked credential and on a pool where `x` is unknown, the selection results
are equal (both `none`). -/
theorem claim_C7_counterexample :
    (getRotatingKey poolExhausted "x").1 = none
      ∧ (getRotatingKey poolUnknown "x").1 = none
      ∧ (getRotatingKey poolExhausted "x").1 = (getRotatingKey poolUnknown "x").1 := by
  refine ⟨?_, rfl, ?_⟩ <;> rfl

/-- C7 (amended): getRotatingKey returns `none` when the provider is known
but has no `active` credential, and the same `none` when the provider is
unknown (the two cases are not distinguishable from the result); the
orchestrator maps this single `none` to one 503 response. -/
theorem claim_C7_notfound_not_distinct (pool : Pool) (prov : String) (pd : ProviderData)
    (hp : pool prov = some pd) (hnone : ∀ k ∈ pd.keys, k.status ≠ KeyStatus.active) :
    (getRotatingKey pool prov).1 = none
      ∧ (∀ (pool2 : Pool), pool2 prov = none → (getRotatingKey pool2 prov).1 = none)
      ∧ ∀ (stats : Stats) (sp sd : List Block) (cd : List CommandDef) (msgs : List Msg)
          (outcome : DispatchOutcome),
          (proxyRequest pool stats prov sp sd cd msgs outcome).1 = 503 := by
  have h1 := getRotatingKey_no_active pool prov pd hp hnone
  refine ⟨by rw [h1], fun pool2 hp2 => by rw [getRotatingKey_unknown pool2 prov hp2], ?_⟩
  intro stats sp sd cd msgs outcome
  unfold proxyRequest
  rw [h1]

theorem claim_C7_witness :
    (getRotatingKey poolExhausted "x").1 = none :=
  (claim_C7_notfound_not_distinct poolExhausted "x" ⟨[⟨"a", KeyStatus.revoked, 3⟩], 0⟩
    rfl (by decide)).1

theorem verify_eval (tokens : String → Option TokenData) (requests : ReqWindows)
    (now : Nat) (tv : String) (td : TokenData)
    (htok : tokens tv = some td) (hen : td.is_enabled = true)
    (hexp : ∀ e, td.expires_at = some e → ¬ e < now) :
    verifyAndRateLimit tokens requests now tv =
      (if td.rpm ≤ ((requests tv).filter (fun ts => now - ts < 60000)).length then
        (VerifyResult.rejected 429
          ("Rate limit of " ++ toString td.rpm ++ " RPM exceeded."), requests)
      else
        (VerifyResult.admitted td.name,
         windowSet requests tv
           (((requests tv).filter (fun ts => now - ts < 60000)) ++ [now]))) := by
  unfold verifyAndRateLimit
  rw [htok]
  have hexpb : (match td.expires_at with
      | some e => decide (e < now)
      | none => false) = false := by
    cases hc : td.expires_at with
    | none => rfl
    | some e => exact decide_eq_false (hexp e hc)
  simp only [hen, hexpb]
  simp

/-- The token map for the C4 scenario: one token `t` named `u` with RPM 3,
enabled, no expiry. -/
def tokensC4 : String → Option TokenData :=
  fun t => if t = "t" then some ⟨"u", 3, true, none⟩ else none

/-- The empty request-window map (fresh limiter state). -/
def emptyWindows : ReqWindows := fun _ => []

/-- One admit call against the C4 token at a given time. -/
def c4call (now : Nat) (w : ReqWindows) : VerifyResult × ReqWindows :=
  verifyAndRateLimit tokensC4 w now "t"

/-- C4: for a known, enabled, unexpired token with ceiling r, the call is
rejected with a 429 result whose message embeds the configured RPM exactly
when the count of timestamps strictly inside the trailing 60-second window
is at least r, and otherwise the current timestamp is appended to the
(purged) window and the call is admitted; in particular with r = 3, three
calls in one window are admitted, the fourth is rejected, and a call 60
seconds after the first is admitted again. -/
theorem claim_C4_rate_limiter (tokens : String → Option TokenData)
    (requests : ReqWindows) (now : Nat) (tv : String) (td : TokenData)
    (htok : tokens tv = some td) (hen : td.is_enabled = true)
    (hexp : ∀ e, td.expires_at = some e → ¬ e < now) :
    (td.rpm ≤ ((requests tv).filter (fun ts => now - ts < 60000)).length →
        verifyAndRateLimit tokens requests now tv =
          (VerifyResult.rejected 429
            ("Rate limit of " ++ toString td.rpm ++ " RPM exceeded."), requests)
        ∧ ∃ pre post, "Rate limit of " ++ toString td.rpm ++ " RPM exceeded." =
            pre ++ toString td.rpm ++ post)
    ∧ (((requests tv).filter (fun ts => now - ts < 60000)).length < td.rpm →
        verifyAndRateLimit tokens requests now tv =
          (VerifyResult.admitted td.name,
           windowSet requests tv
             (((requests tv).filter (fun ts => now - ts < 60000)) ++ [now])))
    ∧ ((c4call 0 emptyWindows).1 = VerifyResult.admitted "u"
        ∧ (c4call 1 (c4call 0 emptyWindows).2).1 = VerifyResult.admitted "u"
        ∧ (c4call 2 (c4call 1 (c4call 0 emptyWindows).2).2).1 = VerifyResult.admitted "u"
        ∧ (c4call 3 (c4call 2 (c4call 1 (c4call 0 emptyWindows).2).2).2).1 =
            VerifyResult.rejected 429 "Rate limit of 3 RPM exceeded."
        ∧ (c4call 60000 (c4call 3 (c4call 2 (c4call 1
            (c4call 0 emptyWindows).2).2).2).2).1 = VerifyResult.admitted "u") := by
  have he := verify_eval tokens requests now tv td htok hen hexp
  refine ⟨fun hle => ⟨?_, "Rate limit of ", " RPM exceeded.", rfl⟩, fun hlt => ?_, ?_⟩
  · rw [he, if_pos hle]
  · rw [he, if_neg (Nat.not_le_of_lt hlt)]
  · refine ⟨by decide, by decide, by decide, by decide, by decide⟩

theorem claim_C4_witness :
    verifyAndRateLimit tokensC4 (fun _ => [0, 1, 2]) 3 "t" =
      (VerifyResult.rejected 429 "Rate limit of 3 RPM exceeded.", fun _ => [0, 1, 2]) :=
  ((claim_C4_rate_limiter tokensC4 (fun _ => [0, 1, 2]) 3 "t" ⟨"u", 3, true, none⟩
    rfl rfl (fun e h => Option.noConfusion h)).1 (by decide)).1

theorem claudeFilter_eq (msgs : List Msg) (sys0 : String) :
    claudeFilter msgs sys0 =
      (msgs.foldl (fun acc m => if m.role == "system" then m.content else acc) sys0,
       msgs.filter (fun m => m.role != "system" && jsTrim m.content != "")) := by
  induction msgs generalizing sys0 with
  | nil => rfl
  | cons m t ih =>
    by_cases hs : m.role == "system"
    · have hr : m.role = "system" := by simpa using hs
      simp only [claudeFilter, hs, if_pos, List.foldl_cons, List.filter_cons]
      rw [ih m.content]
      simp [hr]
    · have hr : ¬ m.role = "system" := by simpa using hs
      simp only [claudeFilter, List.foldl_cons, List.filter_cons]
      rw [if_neg (by simpa using hs)]
      rw [ih sys0]
      by_cases hc : jsTrim m.content = ""
      · simp [hs, hr, hc]
      · simp [hs, hr, hc]

theorem foldl_sys_eq_getLast (msgs : List Msg) (sys0 : String) :
    msgs.foldl (fun acc m => if m.role == "system" then m.content else acc) sys0 =
      (match (msgs.filter (fun m => m.role == "system")).getLast? with
       | some m => m.content
       | none => sys0) := by
  induction msgs generalizing sys0 with
  | nil => rfl
  | cons m t ih =>
    by_cases hs : m.role == "system"
    · rw [List.foldl_cons, if_pos hs, ih m.content, List.filter_cons, if_pos hs]
      cases hft : (t.filter (fun m => m.role == "system")).getLast? with
      | none =>
        have : t.filter (fun m => m.role == "system") = [] := by
          cases hl : t.filter (fun m => m.role == "system") with
          | nil => rfl
          | cons a l => rw [hl] at hft; simp [List.getLast?_concat] at hft
        simp [this]
      | some x =>
        cases hl : t.filter (fun m => m.role == "system") with
        | nil => rw [hl] at hft; simp at hft
        | cons a l =>
          rw [hl] at hft
          rw [List.getLast?_cons_cons, hft]
    · rw [List.foldl_cons, if_neg hs, ih sys0, List.filter_cons, if_neg hs]

/-- The outgoing messages of the Claude conversion are the non-system,
non-blank messages in order. -/
theorem openAIToClaudeRequest_messages (oreq : OpenAIRequest) (pc : ProviderConfig) :
    (openAIToClaudeRequest oreq pc).messages =
      oreq.messages.filter (fun m => m.role != "system" && jsTrim m.content != "") := by
  unfold openAIToClaudeRequest
  rw [claudeFilter_eq]

/-- The outgoing system channel of the Claude conversion is the last system
content when non-empty. -/
theorem openAIToClaudeRequest_system (oreq : OpenAIRequest) (pc : ProviderConfig) :
    (openAIToClaudeRequest oreq pc).system =
      (if oreq.messages.foldl
            (fun acc m => if m.role == "system" then m.content else acc) "" = ""
       then none
       else some (oreq.messages.foldl
            (fun acc m => if m.role == "system" then m.content else acc) "")) := by
  unfold openAIToClaudeRequest
  rw [claudeFilter_eq]

/-- C1 counterexample: on the assembled list `[system s1, user u1, system s2,
user u2]` the claim says the leading system message `s1` becomes the system
channel and the mid-stream `s2` is folded into the next user message; the
code instead sets the channel to the LAST system content `s2` and forwards
`u2` unprefixed.  On `[user a, user b]` the claim says adjacent same-role
messages are merged into one; the code keeps both, so the output has two
adjacent messages of the same role. -/
theorem claim_C1_counterexample :
    (openAIToClaudeRequest
        ⟨[⟨"system", "s1"⟩, ⟨"user", "u1"⟩, ⟨"system", "s2"⟩, ⟨"user", "u2"⟩],
          none, false⟩ ⟨"m"⟩).system = some "s2"
    ∧ some "s2" ≠ some "s1"
    ∧ (openAIToClaudeRequest
        ⟨[⟨"system", "s1"⟩, ⟨"user", "u1"⟩, ⟨"system", "s2"⟩, ⟨"user", "u2"⟩],
          none, false⟩ ⟨"m"⟩).messages = [⟨"user", "u1"⟩, ⟨"user", "u2"⟩]
    ∧ (openAIToClaudeRequest ⟨[⟨"user", "a"⟩, ⟨"user", "b"⟩], none, false⟩
        ⟨"m"⟩).messages = [⟨"user", "a"⟩, ⟨"user", "b"⟩] := by
  refine ⟨by decide, by decide, by decide, by decide⟩

/-- C1 (amended): the conversion to the Claude request removes every
system-role message and drops every message whose trimmed content is empty,
keeping the rest in order without any merging (adjacent same-role messages
may remain); the system channel is the content of the LAST system-role
message of the assembled list regardless of position, omitted when that
content is empty; no joining of leading system messages and no folding of
mid-conversation system messages into later user messages takes place. -/
theorem claim_C1_claude_restructuring (oreq : OpenAIRequest) (pc : ProviderConfig) :
    (openAIToClaudeRequest oreq pc).messages =
        oreq.messages.filter (fun m => m.role != "system" && jsTrim m.content != "")
    ∧ (openAIToClaudeRequest oreq pc).system =
        (if oreq.messages.foldl
              (fun acc m => if m.role == "system" then m.content else acc) "" = ""
         then none
         else some (oreq.messages.foldl
              (fun acc m => if m.role == "system" then m.content else acc) "")) :=
  ⟨openAIToClaudeRequest_messages oreq pc, openAIToClaudeRequest_system oreq pc⟩

/-- C10: in the Claude conversion every system-role message is removed from
the outgoing messages array wherever it occurs; whenever the assembled list
has system-role messages, the outgoing system channel is determined by the
content of the last one alone (present with exactly that content when it is
non-empty, absent when it is empty, each earlier system content discarded);
and when no system-role message has non-empty content, no system field is
included. -/
theorem claim_C10_system_channel (oreq : OpenAIRequest) (pc : ProviderConfig) :
    (∀ m ∈ (openAIToClaudeRequest oreq pc).messages, m.role ≠ "system")
    ∧ (∀ (mlast : Msg),
        (oreq.messages.filter (fun m => m.role == "system")).getLast? = some mlast →
        (openAIToClaudeRequest oreq pc).system =
          (if mlast.content = "" then none else some mlast.content))
    ∧ ((∀ m ∈ oreq.messages, m.role = "system" → m.content = "") →
        (openAIToClaudeRequest oreq pc).system = none) := by
  refine ⟨?_, ?_, ?_⟩
  · intro m hm
    rw [openAIToClaudeRequest_messages] at hm
    have h := List.of_mem_filter hm
    simp only [Bool.and_eq_true, bne_iff_ne, ne_eq] at h
    exact h.1
  · intro mlast hlast
    rw [openAIToClaudeRequest_system, foldl_sys_eq_getLast, hlast]
  · intro hall
    rw [openAIToClaudeRequest_system, foldl_sys_eq_getLast]
    cases hft : (oreq.messages.filter (fun m => m.role == "system")).getLast? with
    | none => simp
    | some x =>
      have hx : x ∈ oreq.messages.filter (fun m => m.role == "system") :=
        List.mem_of_mem_getLast? hft
      have hxr : x.role = "system" := by simpa using List.of_mem_filter hx
      have hxc : x.content = "" := hall x (List.mem_of_mem_filter hx) hxr
      simp [hxc]

theorem claim_C10_witness :
    (openAIToClaudeRequest
        ⟨[⟨"system", "s1"⟩, ⟨"system", "s2"⟩, ⟨"user", "u"⟩], none, false⟩
        ⟨"m"⟩).system =
      (if ("s2" : String) = "" then none else some ("s2" : String)) :=
  (claim_C10_system_channel
    ⟨[⟨"system", "s1"⟩, ⟨"system", "s2"⟩, ⟨"user", "u"⟩], none, false⟩ ⟨"m"⟩).2.1
    ⟨"system", "s2"⟩ (by decide)

theorem claim_C1_amended_witness :
    (openAIToClaudeRequest
        ⟨[⟨"system", "s1"⟩, ⟨"user", "u1"⟩, ⟨"system", "s2"⟩, ⟨"user", "u2"⟩],
          none, false⟩ ⟨"m"⟩).messages =
      ([⟨"system", "s1"⟩, ⟨"user", "u1"⟩, ⟨"system", "s2"⟩, ⟨"user", "u2"⟩] :
        List Msg).filter (fun m => m.role != "system" && jsTrim m.content != "") :=
  (claim_C1_claude_restructuring
    ⟨[⟨"system", "s1"⟩, ⟨"user", "u1"⟩, ⟨"system", "s2"⟩, ⟨"user", "u2"⟩],
      none, false⟩ ⟨"m"⟩).1

/-- A first-message content holding a persona tag, built without a literal
apostrophe in the source. -/
def personaExample : String :=
  "x<Bob" ++ (Char.ofNat 39).toString ++ "s Persona>info"

/-- C5 counterexample: a `<UserPersona>` span in the second message is not
matched although the concatenation of all raw contents contains it (the same
span in the first message is matched), and a `<scenario>` span is neither
extracted nor stripped: it survives verbatim in the unparsed text. -/
theorem claim_C5_counterexample :
    (parseJanitorInput [⟨"user", "hello"⟩,
        ⟨"user", "<UserPersona>me</UserPersona>"⟩]).userInfo = ""
    ∧ (parseJanitorInput [⟨"user", "hello<UserPersona>me</UserPersona>"⟩]).userInfo = "me"
    ∧ (parseJanitorInput [⟨"user", "<scenario>s</scenario>"⟩]).unparsedText =
        "<scenario>s</scenario>" := by
  refine ⟨by decide, by decide, by decide⟩

/-- C5 (amended): parseJanitorInput matches only the `<UserPersona>` and
`<Custom_Prompt>` spans, and only against the FIRST message content (the
persona name likewise comes from the first message, so the parse of
`h :: t` agrees with the parse of `[h]` on every extracted field); first
match per tag wins; matched spans are stripped from the first message
remaining copy (the unparsed text); the character name defaults to the
literal `Character` when no persona open tag is found; and the messages
after the first are all kept as the chat history, never searched or
stripped: each history entry equals the original message except that an
assistant message containing `<w>` keeps only the trimmed text after the
last `<w>` (sixth conjunct; the seventh shows a tagged later message
surviving verbatim, the eighth the `<w>` cleanup, and the ninth that a
non-assistant message containing `<w>` is untouched). -/
theorem claim_C5_parse_janitor :
    (∀ (h : Msg) (t : List Msg),
        (parseJanitorInput (h :: t)).userInfo = (parseJanitorInput [h]).userInfo
        ∧ (parseJanitorInput (h :: t)).customPromptInfo =
            (parseJanitorInput [h]).customPromptInfo
        ∧ (parseJanitorInput (h :: t)).unparsedText = (parseJanitorInput [h]).unparsedText
        ∧ (parseJanitorInput (h :: t)).characterName =
            (parseJanitorInput [h]).characterName)
    ∧ (∀ (h : Msg) (t : List Msg), charScan h.content.data = none →
        (parseJanitorInput (h :: t)).characterName = "Character")
    ∧ (parseJanitorInput
        [⟨"user", "A<UserPersona>me</UserPersona>B<Custom_Prompt>cp</Custom_Prompt>C"⟩]
        = ⟨"me", "cp", "ABC", "Character", []⟩)
    ∧ (parseJanitorInput
        [⟨"user", "<UserPersona>one</UserPersona><UserPersona>two</UserPersona>"⟩]).userInfo
        = "one"
    ∧ (parseJanitorInput [⟨"user", personaExample⟩]).characterName = "Bob"
    ∧ (∀ (h : Msg) (t : List Msg),
        (parseJanitorInput (h :: t)).chatHistory = t.map (fun m =>
          if m.role == "assistant" && containsSubstrB m.content "<w>" then
            { m with content := jsTrim ((jsSplit m.content "<w>").getLastD "") }
          else m))
    ∧ (parseJanitorInput [⟨"user", "hello"⟩,
        ⟨"user", "<UserPersona>me</UserPersona>"⟩]).chatHistory =
        [⟨"user", "<UserPersona>me</UserPersona>"⟩]
    ∧ (parseJanitorInput [⟨"user", "x"⟩,
        ⟨"assistant", "think<w> out"⟩]).chatHistory = [⟨"assistant", "out"⟩]
    ∧ (parseJanitorInput [⟨"user", "x"⟩,
        ⟨"user", "a<w>b"⟩]).chatHistory = [⟨"user", "a<w>b"⟩] := by
  refine ⟨fun h t => ⟨rfl, rfl, rfl, rfl⟩, fun h t hsc => ?_, by decide, by decide,
    by decide, fun h t => rfl, by decide, by decide, by decide⟩
  simp [parseJanitorInput, hsc]

theorem claim_C5_witness :
    (parseJanitorInput [⟨"user", "hello"⟩, ⟨"user", "world"⟩]).characterName =
      "Character" :=
  claim_C5_parse_janitor.2.1 ⟨"user", "hello"⟩ [⟨"user", "world"⟩] (by decide)

/-- C8: request-scoped macro processing ordered after placeholder
substitution: a set-variable span in an earlier block removes itself and its
value is substituted for a get-variable span in a later block of the same
buildFinalMessages call (first conjunct); a get of an unset name becomes the
empty string (second conjunct); every call starts from the empty variable map
by definition (third conjunct), and this reset is observable: with a leaked
map binding x to 9 the engine would emit `A9`, while an actual fresh call
emits `A` (fourth and fifth conjuncts), so variables set in one call are
never visible in another. -/
theorem claim_C8_macro_scoping :
    buildFinalMessages "prov"
        [⟨"b1", "system", "\x7b\x7bsetglobalvar::x::7\x7d\x7d", "Standard", none⟩,
         ⟨"b2", "user", "A\x7b\x7bgetglobalvar::x\x7d\x7d", "Standard", none⟩]
        [] [] [⟨"user", "hi"⟩]
      = Except.ok ⟨[⟨"user", "A7"⟩], "Character", []⟩
    ∧ buildFinalMessages "prov"
        [⟨"b1", "user", "A\x7b\x7bgetglobalvar::y\x7d\x7d", "Standard", none⟩]
        [] [] [⟨"user", "hi"⟩]
      = Except.ok ⟨[⟨"user", "A"⟩], "Character", []⟩
    ∧ (∀ (provider : String) (sp sd : List Block) (cd : List CommandDef)
        (msgs : List Msg),
        buildFinalMessages provider sp sd cd msgs =
          buildFinalMessagesWithVars [] provider sp sd cd msgs)
    ∧ buildFinalMessagesWithVars [("x", "9")] "prov"
        [⟨"b2", "user", "A\x7b\x7bgetglobalvar::x\x7d\x7d", "Standard", none⟩]
        [] [] [⟨"user", "hi"⟩]
      = Except.ok ⟨[⟨"user", "A9"⟩], "Character", []⟩
    ∧ buildFinalMessages "prov"
        [⟨"b2", "user", "A\x7b\x7bgetglobalvar::x\x7d\x7d", "Standard", none⟩]
        [] [] [⟨"user", "hi"⟩]
      = Except.ok ⟨[⟨"user", "A"⟩], "Character", []⟩ := by
  refine ⟨by decide, by decide, fun provider sp sd cd msgs => rfl, by decide, by decide⟩

theorem joinSep_mem_split (sep : String) :
    ∀ (l : List String) (x : String), x ∈ l →
      ∃ pre post, joinSep sep l = pre ++ x ++ post := by
  intro l
  induction l with
  | nil => intro x hx; simp at hx
  | cons a t ih =>
    intro x hx
    cases t with
    | nil =>
      simp at hx
      subst hx
      exact ⟨"", "", by simp [joinSep, String.empty_append, String.append_empty]⟩
    | cons b t2 =>
      rcases List.mem_cons.mp hx with h | h
      · subst h
        exact ⟨"", sep ++ joinSep sep (b :: t2), by
          simp [joinSep, String.empty_append, String.append_assoc]⟩
      · obtain ⟨pre, post, hp⟩ := ih x h
        refine ⟨a ++ sep ++ pre, post, ?_⟩
        rw [joinSep, hp]
        simp [String.append_assoc]

theorem prefillErrorMsg_lists_tags (prefills : List CommandDef) (cmd : CommandDef)
    (h : cmd ∈ prefills) :
    ∃ pre post, prefillErrorMsg prefills =
      pre ++ ("<" ++ cmd.command_tag ++ ">") ++ post := by
  obtain ⟨pre, post, hp⟩ := joinSep_mem_split ", "
    (prefills.map (fun c => "<" ++ c.command_tag ++ ">")) _ (List.mem_map_of_mem _ h)
  refine ⟨"Error: Only 1 Prefill command is allowed. Found: " ++ pre, post ++ ".", ?_⟩
  rw [prefillErrorMsg, hp]
  simp [String.append_assoc]

/-- C6 counterexample: with an empty resolved structure (no blocks for the
provider and none under default), a request carrying two distinct
Prefill-kind command definitions does NOT fail: buildFinalMessages returns
the pass-through result before the prefill-conflict check runs. -/
theorem claim_C6_counterexample :
    (buildFinalMessages "prov" [] []
        [⟨"P1", "Prefill", none, "assistant", "pre1"⟩,
         ⟨"P2", "Prefill", none, "assistant", "pre2"⟩] [⟨"user", "hi"⟩]).isOk = true
    ∧ 2 ≤ (([⟨"P1", "Prefill", none, "assistant", "pre1"⟩,
         ⟨"P2", "Prefill", none, "assistant", "pre2"⟩] : List CommandDef).filter
           (fun c => c.command_type == "Prefill")).length := by
  refine ⟨by decide, by decide⟩

/-- C6 (amended): when the resolved structure is non-empty, two or more
Prefill-kind definitions make assembly fail with the UserInputError message
listing every offending command tag; the orchestrator error handler maps a
UserInputError to status 400 with the credential pool returned unchanged (no
status or failure counter mutated); and with at most one Prefill-kind
definition assembly never raises this error.  When the resolved structure is
empty, the pass-through return precedes the conflict check, so no error is
raised even with two Prefill definitions. -/
theorem claim_C6_prefill_conflict (provider : String) (sp sd : List Block)
    (cd : List CommandDef) (msgs : List Msg)
    (hstruct : resolveStructure provider sp sd ≠ [])
    (hpf : 2 ≤ (cd.filter (fun c => c.command_type == "Prefill")).length) :
    buildFinalMessages provider sp sd cd msgs =
        Except.error (prefillErrorMsg (cd.filter (fun c => c.command_type == "Prefill")))
    ∧ (∀ cmd ∈ cd.filter (fun c => c.command_type == "Prefill"),
        ∃ pre post, prefillErrorMsg (cd.filter (fun c => c.command_type == "Prefill")) =
          pre ++ ("<" ++ cmd.command_tag ++ ">") ++ post)
    ∧ (∀ (pool : Pool) (prov2 apiKey msg : String),
        handleProxyError pool prov2 apiKey (ProxyError.userInput msg) = (400, pool))
    ∧ (∀ cd2 : List CommandDef,
        (cd2.filter (fun c => c.command_type == "Prefill")).length ≤ 1 →
        (buildFinalMessages provider sp sd cd2 msgs).isOk = true) := by
  have h1 : ¬ ((resolveStructure provider sp sd).length = 0) :=
    fun hc => hstruct (List.length_eq_zero.mp hc)
  have h2 : 1 < (cd.filter (fun c => c.command_type == "Prefill")).length := by omega
  refine ⟨?_, fun cmd hc => prefillErrorMsg_lists_tags _ cmd hc,
    fun pool prov2 apiKey msg => rfl, ?_⟩
  · simp only [buildFinalMessages, buildFinalMessagesWithVars, if_neg h1, if_pos h2]
  · intro cd2 hle
    have h3 : ¬ (1 < (cd2.filter (fun c => c.command_type == "Prefill")).length) := by
      omega
    by_cases hs : (resolveStructure provider sp sd).length = 0
    · simp only [buildFinalMessages, buildFinalMessagesWithVars, if_pos hs]
      rfl
    · simp only [buildFinalMessages, buildFinalMessagesWithVars, if_neg hs, if_neg h3]
      rfl

theorem claim_C6_witness :
    buildFinalMessages "prov" [⟨"b1", "system", "sys", "Standard", none⟩] []
        [⟨"P1", "Prefill", none, "assistant", "pre1"⟩,
         ⟨"P2", "Prefill", none, "assistant", "pre2"⟩] [⟨"user", "hi"⟩] =
      Except.error (prefillErrorMsg
        (([⟨"P1", "Prefill", none, "assistant", "pre1"⟩,
           ⟨"P2", "Prefill", none, "assistant", "pre2"⟩] : List CommandDef).filter
          (fun c => c.command_type == "Prefill"))) :=
  (claim_C6_prefill_conflict "prov" [⟨"b1", "system", "sys", "Standard", none⟩] []
    [⟨"P1", "Prefill", none, "assistant", "pre1"⟩,
     ⟨"P2", "Prefill", none, "assistant", "pre2"⟩] [⟨"user", "hi"⟩]
    (by decide) (by decide)).1

/-- C9 counterexample: a request for a provider unknown to the pool is
rejected before dispatch with 503, yet the prompt counter has been
incremented (from 0 to 1): the stats are not left unchanged on a
rejected-before-dispatch request. -/
theorem claim_C9_counterexample :
    (proxyRequest poolUnknown ⟨0, 5, 7⟩ "x" [] [] [] []
        (DispatchOutcome.failure none)).1 = 503
    ∧ (proxyRequest poolUnknown ⟨0, 5, 7⟩ "x" [] [] [] []
        (DispatchOutcome.failure none)).2.2 = ⟨1, 5, 7⟩
    ∧ (⟨1, 5, 7⟩ : Stats) ≠ ⟨0, 5, 7⟩ := by
  refine ⟨by decide, by decide, by decide⟩

/-- C9 (amended): the prompt counter is incremented for every inbound
request at the very start of the orchestrator, before credential selection,
so rejected and failed requests bump it too; the token counters, in
contrast, are only changed by a successful completion: they stay unchanged
on any dispatch failure and on user-input errors, the whole stats equal the
merely-incremented stats when no credential is available, and on a
successful dispatch the usage tokens are added. -/
theorem claim_C9_stats_counters (pool : Pool) (stats : Stats) (provider : String)
    (sp sd : List Block) (cd : List CommandDef) (msgs : List Msg)
    (outcome : DispatchOutcome) :
    (proxyRequest pool stats provider sp sd cd msgs outcome).2.2.promptCount =
        stats.promptCount + 1
    ∧ (∀ st, outcome = DispatchOutcome.failure st →
        (proxyRequest pool stats provider sp sd cd msgs outcome).2.2.totalInputTokens =
            stats.totalInputTokens
        ∧ (proxyRequest pool stats provider sp sd cd msgs outcome).2.2.totalOutputTokens =
            stats.totalOutputTokens)
    ∧ ((getRotatingKey pool provider).1 = none →
        (proxyRequest pool stats provider sp sd cd msgs outcome).2.2 =
          incrementPromptCount stats)
    ∧ (∀ (pt ct : Nat) (key : KeyEntry), outcome = DispatchOutcome.success pt ct →
        (getRotatingKey pool provider).1 = some key →
        (buildFinalMessages provider sp sd cd msgs).isOk = true →
        (proxyRequest pool stats provider sp sd cd msgs outcome).2.2 =
          addTokens (incrementPromptCount stats) pt ct) := by
  unfold proxyRequest
  rcases hk : getRotatingKey pool provider with ⟨ko, pool1⟩
  cases ko with
  | none =>
    refine ⟨rfl, fun st hst => ⟨rfl, rfl⟩, fun _ => rfl, ?_⟩
    intro pt ct key hout hsome hok
    simp at hsome
  | some key0 =>
    cases hb : buildFinalMessages provider sp sd cd msgs with
    | error msg =>
      refine ⟨rfl, fun st hst => ⟨rfl, rfl⟩, ?_, ?_⟩
      · intro hn
        simp at hn
      · intro pt ct key hout hsome hok
        exact Bool.noConfusion hok
    | ok out =>
      cases outcome with
      | success pt ct =>
        refine ⟨rfl, ?_, ?_, ?_⟩
        · intro st hst
          exact DispatchOutcome.noConfusion hst
        · intro hn
          simp at hn
        · intro pt2 ct2 key hout2 hsome hok
          cases hout2
          rfl
      | failure st =>
        refine ⟨rfl, fun st2 hst => ⟨rfl, rfl⟩, ?_, ?_⟩
        · intro hn
          simp at hn
        · intro pt ct key hout hsome hok
          exact DispatchOutcome.noConfusion hout

theorem claim_C9_witness :
    (proxyRequest poolC3 ⟨0, 0, 0⟩ "p" [] [] [] []
        (DispatchOutcome.success 2 3)).2.2 =
      addTokens (incrementPromptCount ⟨0, 0, 0⟩) 2 3 :=
  (claim_C9_stats_counters poolC3 ⟨0, 0, 0⟩ "p" [] [] [] []
    (DispatchOutcome.success 2 3)).2.2.2 2 3 ⟨"a", KeyStatus.active, 0⟩ rfl
    (by decide) (by decide)
